import Mathlib

/-!
Verification development for the `file-insights` tool.

The Python sources under `src/file_insights/` are shallowly embedded here:
pure computations become Lean functions, and every effectful operation
(`Path.stat`, file reads, `mimetypes.guess_type`, the moviepy probe, the
process clock read by `datetime.now()`) is threaded as explicit input data,
so that one Lean value describes the filesystem/clock state a Python run
would observe.

Modelling conventions, stated once:
- Paths are POSIX strings (`/`-separated), matching the Linux behaviour of
  `pathlib` / `fnmatch` / `os.walk` (on POSIX `os.path.normcase` is the
  identity, so `fnmatch.fnmatch` is pure glob matching).
- Timestamps are whole seconds (`Int`).  The code compares
  `(now - created).total_seconds()` only against integer thresholds and by
  plain ordering, so whole-second granularity is faithful for every
  comparison the code performs.
- Python `float` results of divisions (`average_size`, percentages,
  durations, fps) are modelled as `ℚ`; the code only stores and copies
  these values apart from the divisions themselves.
- A Python exception that a given scope does not catch is modelled by
  `Except`; an exception swallowed by a `try/except: pass` is modelled by
  the handler's fallback value.
-/

/-! ### Glob matching: `fnmatch.fnmatch`

`fnmatch` translates a pattern to a regex in which `*` becomes `.*`
(matching any character sequence, `/` included) and `?` becomes `.`;
`**` is simply two stars and equivalent to `*`.  A star therefore matches
when the rest of the pattern matches some suffix of the text, rendered
below with `List.tails`.  None of the patterns appearing in this
repository use `[...]` bracket expressions, so the embedding treats `[`
as a literal character, which agrees with `fnmatch` on all bracket-free
patterns. -/

def globMatch : List Char → List Char → Bool
  | [], cs => cs.isEmpty
  | '*' :: ps, cs => cs.tails.any (fun suffix => globMatch ps suffix)
  | '?' :: ps, cs =>
      match cs with
      | [] => false
      | _ :: cs2 => globMatch ps cs2
  | p :: ps, cs =>
      match cs with
      | [] => false
      | c :: cs2 => p == c && globMatch ps cs2

/-- Python `fnmatch.fnmatch(name, pattern)` on POSIX (no case folding). -/
def fnmatch (name pattern : String) : Bool :=
  globMatch pattern.toList name.toList

/-! ### Model of a directory tree and `os.walk` -/

/-- One filesystem entry: a plain file or a directory with its entries,
listed in OS enumeration order. -/
inductive FSTree where
  | file (name : String)
  | dir (name : String) (children : List FSTree)

/-- POSIX path join, as performed by `Path(root) / name`. -/
def joinPath (dir name : String) : String := dir ++ "/" ++ name

/-- Python `FileParser._should_exclude` (parser.py:123): a path is excluded when
its string form matches any configured pattern. -/
def should_exclude (patterns : List String) (path : String) : Bool :=
  patterns.any (fun pattern => fnmatch path pattern)

/-- The file children of one directory that survive the per-file
`_should_exclude` test inside `_walk_directory` (parser.py:116-119). -/
def currentFiles (patterns : List String) (path : String)
    (entries : List FSTree) : List String :=
  entries.filterMap fun t =>
    match t with
    | .file n =>
        let p := joinPath path n
        if should_exclude patterns p then none else some p
    | .dir _ _ => none

/-- The recursive part of `FileParser._walk_directory` (parser.py:108-121):
`os.walk` enumerates the files of the current directory first, prunes the
subdirectory list via `_should_exclude` before descending
(parser.py:113), and then walks each kept subdirectory in order. -/
def walkSubdirs (patterns : List String) (path : String) :
    List FSTree → List String
  | [] => []
  | .file _ :: rest => walkSubdirs patterns path rest
  | .dir n cs :: rest =>
      (if should_exclude patterns (joinPath path n) then []
       else
         currentFiles patterns (joinPath path n) cs ++
           walkSubdirs patterns (joinPath path n) cs) ++
        walkSubdirs patterns path rest

/-- Python `FileParser._walk_directory` on the directory at `path` whose entries
are `entries`. -/
def walk_directory (patterns : List String) (path : String)
    (entries : List FSTree) : List String :=
  currentFiles patterns path entries ++ walkSubdirs patterns path entries

/-- Non-recursive enumeration (parser.py:96): direct file children only;
note that this branch applies no exclusion itself. -/
def iterdirFiles (path : String) (entries : List FSTree) : List String :=
  entries.filterMap fun t =>
    match t with
    | .file n => some (joinPath path n)
    | .dir _ _ => none

/-- All file paths below a directory, with the files of each directory
listed before the contents of its subdirectories (the order `os.walk`
produces); no filtering of any kind. -/
def allSubFiles (path : String) : List FSTree → List String
  | [] => []
  | .file _ :: rest => allSubFiles path rest
  | .dir n cs :: rest =>
      (iterdirFiles (joinPath path n) cs ++ allSubFiles (joinPath path n) cs) ++
        allSubFiles path rest

/-- All file paths in the directory at `path` with entries `entries`. -/
def allFilesIn (path : String) (entries : List FSTree) : List String :=
  iterdirFiles path entries ++ allSubFiles path entries

/-- Python `Config.DEFAULT_EXCLUDE_PATTERNS` (config.py:16-27). -/
def DEFAULT_EXCLUDE_PATTERNS : List String :=
  ["**/.*", "**/__pycache__/**", "**/*.pyc", "**/node_modules/**",
   "**/venv/**", "**/.git/**", "**/.svn/**", "**/.hg/**", "**/.vscode/**",
   "**/.idea/**"]

/-! ### Path accessors (`pathlib.PurePosixPath`)

String splitting, prefix tests and lowercasing are rendered over the
underlying character lists (several `String` library routines recurse on
byte positions, which obscures their computational content); each helper
agrees with the corresponding `str` method on the ASCII paths and
extensions this development manipulates. -/

/-- Python `s.split(sep)` for a one-character separator. -/
def splitChar (sep : Char) : List Char → List (List Char)
  | [] => [[]]
  | c :: cs =>
      let r := splitChar sep cs
      if c = sep then [] :: r
      else
        match r with
        | [] => [[c]]
        | g :: gs => (c :: g) :: gs

/-- Python `str.lower()` (ASCII). -/
def strLower (s : String) : String := String.mk (s.data.map Char.toLower)

/-- Python `str.startswith(pre)`. -/
def strStartsWith (s pre : String) : Bool := pre.data.isPrefixOf s.data

/-- Join path groups back with `/` separators. -/
def joinChars : List (List Char) → List Char
  | [] => []
  | [g] => g
  | g :: gs => g ++ '/' :: joinChars gs

/-- Python `Path.name`: the final path component. -/
def pathName (p : String) : String :=
  String.mk (((splitChar '/' p.data).getLast?).getD p.data)

/-- Python `Path.suffix`: the last dot-suffix of the final component; empty when
the only dot is leading (".git"), trailing ("a."), or absent. -/
def pathSuffix (p : String) : String :=
  let nm := (pathName p).data
  let groups := splitChar '.' nm
  match groups.getLast? with
  | none => ""
  | some lastPart =>
      if groups.length ≤ 1 then ""
      else if lastPart.isEmpty then ""
      else if nm.length - lastPart.length - 1 = 0 then ""
      else String.mk ('.' :: lastPart)

/-- Python `Path.parent` rendered as a string (POSIX). -/
def pathParent (p : String) : String :=
  let groups := splitChar '/' p.data
  if groups.length ≤ 1 then "."
  else if groups.head? = some [] && groups.length = 2 then "/"
  else String.mk (joinChars groups.dropLast)

/-- Python `Path.parts` on POSIX: a leading "/" becomes its own root marker. -/
def pathParts (p : String) : List String :=
  match splitChar '/' p.data with
  | [] :: rest => "/" :: rest.map String.mk
  | gs => gs.map String.mk

/-! ### `mimetypes.guess_type`

The Python standard library guesses the MIME type from the (lowercased)
extension via a static table.  The table below is the restriction of that
stdlib table to the extensions exercised in this development; every other
extension yields `none`, as `guess_type` does for unknown suffixes.  (The
`.gz`/`.Z` encoding-suffix special case of `guess_type` is not modelled;
no path considered here uses an encoding suffix.) -/
def mimeTable : List (String × String) :=
  [(".txt", "text/plain"), (".py", "text/x-python"), (".md", "text/markdown"),
   (".json", "application/json"), (".html", "text/html"), (".csv", "text/csv"),
   (".png", "image/png"), (".jpg", "image/jpeg"), (".jpeg", "image/jpeg"),
   (".gif", "image/gif"), (".mp4", "video/mp4"), (".pdf", "application/pdf"),
   (".zip", "application/zip")]

/-- Python `mimetypes.guess_type(str(path))[0]` (parser.py:145). -/
def guess_type (path : String) : Option String :=
  mimeTable.lookup (strLower (pathSuffix path))

/-- Modelled from the spec: `constants.py` (symbol `COMMON_BINARY_EXTENSIONS`)
is imported by parser.py:14 but the file is not under `src/`.  Spec
section 4.2 describes it as "a fixed known-binary-extension set (images,
audio, video, archives, executables, office documents)"; this is a
representative such set. -/
def COMMON_BINARY_EXTENSIONS : List String :=
  [".jpg", ".jpeg", ".png", ".gif", ".bmp", ".mp3", ".wav", ".mp4", ".avi",
   ".mkv", ".zip", ".tar", ".7z", ".exe", ".dll", ".so", ".doc", ".docx",
   ".xls", ".xlsx", ".ppt", ".pptx", ".pdf"]

/-- Modelled from the spec: `constants.py` (symbol `COMMON_VIDEO_EXTENSIONS`)
is imported by parser.py:14 but the file is not under `src/`.  Spec
section 3 describes it as "a fixed set of known video extensions". -/
def COMMON_VIDEO_EXTENSIONS : List String :=
  [".mp4", ".avi", ".mkv", ".mov", ".wmv", ".flv", ".webm", ".m4v", ".mpg",
   ".mpeg"]

/-! ### `FileInfo` (parser.py:17-55) -/

structure FileInfo where
  path : String
  size : Nat
  extension : String
  created_time : Int
  modified_time : Int
  content_preview : Option String := none
  mime_type : Option String := none
  video_duration : Option ℚ := none
  video_resolution : Option (Int × Int) := none
  video_fps : Option ℚ := none
  video_codec : Option String := none
  audio_codec : Option String := none
deriving DecidableEq

/-- Python `mime_type.startswith(("text/", "application/json"))`. -/
def textLikeMime (m : String) : Bool :=
  strStartsWith m "text/" || strStartsWith m "application/json"

/-- Python `FileInfo.is_binary` (parser.py:35-40): binary iff a MIME type is
present and is not text-like; files without a MIME type count as
non-binary. -/
def FileInfo.is_binary (fi : FileInfo) : Bool :=
  match fi.mime_type with
  | some m => !(textLikeMime m)
  | none => false

/-- Python `FileInfo.name` (parser.py:42-45). -/
def FileInfo.name (fi : FileInfo) : String := pathName fi.path

/-- Python `FileInfo.is_video` (parser.py:47-50). -/
def FileInfo.is_video (fi : FileInfo) : Bool :=
  COMMON_VIDEO_EXTENSIONS.contains fi.extension

/-- Python `FileInfo.has_video_metadata` (parser.py:52-55). -/
def FileInfo.has_video_metadata (fi : FileInfo) : Bool :=
  fi.is_video && fi.video_duration.isSome

/-! ### The moviepy probe environment and `extract_video_metadata`
(video.py:15-111) -/

/-- What one `VideoFileClip` object reports.  A field is `none` when the
attribute is missing or holds Python `None`; both make the corresponding
`hasattr`/truthiness guard fail in the same way. -/
structure ClipInfo where
  duration : Option ℚ := none
  w : Option Int := none
  h : Option Int := none
  size : Option (List Int) := none
  fps : Option ℚ := none
  codec_name : Option String := none
  audio : Option (Option String) := none
deriving DecidableEq

deriving instance DecidableEq for Except

/-- The effect results `extract_video_metadata` consumes for one path:
`os.path.getsize` (`none` = raised, caught at video.py:104) and the
`VideoFileClip` constructor (`.error` = raised, caught at video.py:101). -/
structure ProbeEnv where
  getsize : Option Nat := none
  clip : Except Unit ClipInfo := .error ()
deriving DecidableEq

/-- Python truthiness of an optional integer: `None` and `0` are falsy. -/
def intTruthy : Option Int → Bool
  | some v => v != 0
  | none => false

/-- Python `extract_video_metadata` (video.py:15-111).  Files under 10000 bytes
are skipped (video.py:35); a failed probe leaves the record unchanged;
duration/fps are stored whenever the attribute is present and non-None
(video.py:50-51, 73-74); resolution is taken from `w`/`h` when both are
truthy (video.py:60-61), else from a two-element `size` (video.py:63-64);
codec names are copied when the attributes exist (video.py:82-92). -/
def extract_video_metadata (env : ProbeEnv) (fi : FileInfo) : FileInfo :=
  match env.getsize with
  | none => fi
  | some sz =>
    if sz < 10000 then fi
    else
      match env.clip with
      | .error _ => fi
      | .ok clip =>
        let fi1 :=
          match clip.duration with
          | some d => { fi with video_duration := some d }
          | none => fi
        let fi2 :=
          if intTruthy clip.w && intTruthy clip.h then
            { fi1 with video_resolution := some (clip.w.getD 0, clip.h.getD 0) }
          else
            match clip.size with
            | some [a, b] => { fi1 with video_resolution := some (a, b) }
            | _ => fi1
        let fi3 :=
          match clip.fps with
          | some f => { fi2 with video_fps := some f }
          | none => fi2
        let fi4 :=
          match clip.codec_name with
          | some c => { fi3 with video_codec := some c }
          | none => fi3
        match clip.audio with
        | some (some ac) => { fi4 with audio_codec := some ac }
        | _ => fi4

/-! ### `FileParser` (parser.py:58-194) -/

/-- The `stat` result fields the code reads (parser.py:132-136). -/
structure StatResult where
  st_size : Nat
  st_ctime : Int
  st_mtime : Int
deriving DecidableEq

/-- The effect results `_get_file_info` consumes for one path.  `stat` is
`none` when `Path.stat` raises (the file vanished); `readText` is the
decoded first-1000-character prefix from the `open`/`read` at
parser.py:162-163, or `none` when opening/reading raises (the
`errors="replace"` mode means the utf-8 attempt never raises
`UnicodeDecodeError`, so the latin-1 fallback is unreachable and a single
read result is faithful). -/
structure FileEnv where
  stat : Option StatResult := none
  readText : Option String := none
  probe : ProbeEnv := {}
deriving DecidableEq

/-- Constructor state of `FileParser` (parser.py:61-66, 68-75); the
defaults are those of `__init__` plus `set_extract_video_metadata`. -/
structure FileParser where
  recursive : Bool := true
  exclude_patterns : List String := []
  extract_video_metadata : Bool := false
deriving DecidableEq

/-- The `likely_binary` flag of parser.py:150-153: extension in the known
binary set, or a MIME type present and not text-like.  Both the extension
and the MIME guess are functions of the path alone. -/
def likelyBinary (path : String) : Bool :=
  COMMON_BINARY_EXTENSIONS.contains (strLower (pathSuffix path)) ||
    (match guess_type path with
     | some m => !(textLikeMime m)
     | none => false)

/-- Characters counted by the non-printable scan at parser.py:166:
`ord(c) < 32 and c not in '\n\r\t'`. -/
def nonPrintableCount (s : String) : Nat :=
  (s.toList.filter (fun c =>
    c.toNat < 32 && c != Char.ofNat 10 && c != Char.ofNat 13 &&
      c != Char.ofNat 9)).length

/-- Python `FileParser._get_file_info` (parser.py:130-193).  The unguarded
`file_path.stat()` at parser.py:132 makes the whole call raise when stat
fails, hence the `Except` result; every later per-file failure is
swallowed inside the method.  The binary-content test at parser.py:166
compares the count against `len(content) * 0.1` in floating point; for
prefixes of at most 1000 characters that comparison coincides with the
exact `10 * count > len` used here. -/
def get_file_info (p : FileParser) (env : FileEnv) (path : String) :
    Except Unit FileInfo :=
  match env.stat with
  | none => .error ()
  | some st =>
    let extension := strLower (pathSuffix path)
    let mime := guess_type path
    let likely_binary := likelyBinary path
    let content_preview :=
      if !likely_binary && st.st_size < 1024 * 1024 then
        match env.readText with
        | none => none
        | some content =>
            if content.toList.contains (Char.ofNat 0) ||
                10 * nonPrintableCount content > content.length then none
            else some content
      else none
    let fi : FileInfo :=
      { path := path, size := st.st_size, extension := extension,
        created_time := st.st_ctime, modified_time := st.st_mtime,
        content_preview := content_preview, mime_type := mime }
    .ok (if p.extract_video_metadata && COMMON_VIDEO_EXTENSIONS.contains extension
         then extract_video_metadata env.probe fi
         else fi)

/-- The per-path loop of `parse_directory` (parser.py:99-104): re-check
exclusion, build the record, append.  `_get_file_info` is called with no
handler, so its exception aborts the whole loop. -/
def buildRecords (p : FileParser) (fs : String → FileEnv) :
    List String → Except Unit (List FileInfo)
  | [] => .ok []
  | q :: rest =>
    if should_exclude p.exclude_patterns q then buildRecords p fs rest
    else
      match get_file_info p (fs q) q with
      | .error e => .error e
      | .ok fi =>
        match buildRecords p fs rest with
        | .error e => .error e
        | .ok l => .ok (fi :: l)

/-- The path enumeration step of `parse_directory` (parser.py:92-96). -/
def enumeratedPaths (p : FileParser) (root : String)
    (entries : List FSTree) : List String :=
  if p.recursive then walk_directory p.exclude_patterns root entries
  else iterdirFiles root entries

/-- Python `FileParser.parse_directory` (parser.py:77-106) on the directory at
`root` whose on-disk entries at enumeration time are `entries`, while
`fs` gives the per-path effect results observed later during the build
loop (the two can disagree: that is exactly a file disappearing between
enumeration and build).  The `is_dir` check at parser.py:87 is a
directory-level precondition outside this model, which receives a
directory by construction; `tqdm` at parser.py:99 is an identity
iterator wrapper. -/
def parse_directory (p : FileParser) (fs : String → FileEnv)
    (root : String) (entries : List FSTree) : Except Unit (List FileInfo) :=
  buildRecords p fs (enumeratedPaths p root entries)

/-- The parser that `scan` constructs when the caller passes no
`--exclude` options (main.py:108 with click's empty-tuple default):
`FileParser(recursive=True, exclude_patterns=())`. -/
def defaultScanParser : FileParser := {}

/-! ### `InsightGenerator` (insights.py:158-319) -/

/-- Python `min(iterable, key=k)`: the accumulator is replaced only on a
strict improvement, so on ties the earliest element wins. -/
def foldMinBy {α : Type} (k : α → Int) (x : α) (xs : List α) : α :=
  xs.foldl (fun best y => if k y < k best then y else best) x

/-- Python `max(iterable, key=k)`: replaced only when strictly larger, so
on ties the earliest element wins. -/
def foldMaxBy {α : Type} (k : α → Int) (x : α) (xs : List α) : α :=
  xs.foldl (fun best y => if k best < k y then y else best) x

/-- Result of `_general_statistics` (insights.py:181-212).  The source
renders `oldest_file`/`newest_file` as the label
`f"{file.name} ({file.created_time:%Y-%m-%d})"` (insights.py:209-210); the
embedding keeps the record selected by the `min`/`max` calls at
insights.py:198-199, of which that label is a presentation. -/
structure GeneralStats where
  total_files : Nat
  total_size : Nat
  average_size : ℚ
  oldest_file : Option FileInfo
  newest_file : Option FileInfo
  total_directories : Nat
deriving DecidableEq

/-- Python `InsightGenerator._general_statistics` (insights.py:181-212). -/
def general_statistics (files : List FileInfo) : GeneralStats :=
  match files with
  | [] =>
      { total_files := 0, total_size := 0, average_size := 0,
        oldest_file := none, newest_file := none, total_directories := 0 }
  | x :: xs =>
      let total_size := ((x :: xs).map (fun f => f.size)).sum
      { total_files := (x :: xs).length,
        total_size := total_size,
        average_size := (total_size : ℚ) / ((x :: xs).length : ℚ),
        oldest_file := some (foldMinBy (fun f => f.created_time) x xs),
        newest_file := some (foldMaxBy (fun f => f.created_time) x xs),
        total_directories :=
          (((x :: xs).map (fun f => pathParent f.path)).dedup).length }

/-- One entry of the `file_types` list (insights.py:232-239). -/
structure ExtStat where
  extension : String
  count : Nat
  size : Nat
  percentage : ℚ
deriving DecidableEq

/-- Keys of a Python dict in insertion order: first occurrence of each
value in the stream. -/
def firstOccurrences (ks : List String) : List String :=
  ks.foldl (fun acc k => if acc.contains k then acc else acc ++ [k]) []

/-- Python `InsightGenerator._file_type_statistics` (insights.py:214-241).
Grouping by a `defaultdict` keeps extension keys in first-occurrence
order.  `sorted(..., key=lambda x: len(x[1]), reverse=True)` is the
stable sort descending by member count; a stable sort's output is the
unique sorted stable permutation, so the (stable) insertion sort used
here computes exactly what Python's stable sort returns. -/
def file_type_statistics (files : List FileInfo) : List ExtStat :=
  match files with
  | [] => []
  | _ =>
      let total := (files.map (fun f => f.size)).sum
      let groups := (firstOccurrences (files.map (fun f => f.extension))).map
        (fun e => (e, files.filter (fun f => f.extension == e)))
      let sortedGroups :=
        groups.insertionSort (fun a b => b.2.length ≤ a.2.length)
      sortedGroups.map (fun g =>
        let sz := (g.2.map (fun f => f.size)).sum
        { extension := g.1, count := g.2.length, size := sz,
          percentage :=
            if 0 < total then (sz : ℚ) / (total : ℚ) * 100 else 0 })

/-- The bucket chosen by the if/elif chain at insights.py:262-275 for a
given age in seconds. -/
def bucketOf (age : Int) : String :=
  if age < 86400 then "Last 24 hours"
  else if age < 604800 then "Last week"
  else if age < 2592000 then "Last month"
  else if age < 31536000 then "Last year"
  else if age < 94672800 then "Last 3 years"
  else if age < 315360000 then "Last 10 years"
  else "Older"

/-- The seven keys of the `age_distribution` dict in their insertion
order (insights.py:249-257). -/
def ageLabels : List String :=
  ["Last 24 hours", "Last week", "Last month", "Last year", "Last 3 years",
   "Last 10 years", "Older"]

/-- Python `InsightGenerator._age_distribution` (insights.py:243-278).  `now` is
the value `datetime.now()` returns at insights.py:248 — the Python method
takes no time parameter.  The dict is pre-seeded with the seven labels,
incremented once per file, and entries with zero count are removed while
preserving insertion order; this is rendered as per-label counts. -/
def age_distribution (now : Int) (files : List FileInfo) : List (String × Nat) :=
  if files.isEmpty then []
  else
    (ageLabels.map (fun l =>
        (l, files.countP (fun f => bucketOf (now - f.created_time) == l)))).filter
      (fun e => 0 < e.2)

/-- The video-metadata block attached to a file-tree leaf
(insights.py:307-315). -/
structure VMeta where
  video_duration : Option ℚ
  video_resolution : Option (Int × Int)
  video_fps : Option ℚ
  video_codec : Option String
  audio_codec : Option String

/-- A node of the nested file-tree mapping built at insights.py:280-319:
directories are dicts, leaves carry the `file_data` fields of
insights.py:300-304 plus the optional video block. -/
inductive FTree where
  | leaf (size : Nat) (extension : String) (is_video : Bool)
      (video : Option VMeta)
  | dir (children : List (String × FTree))

/-- A dict of named children in insertion order. -/
abbrev FMap := List (String × FTree)

/-- Python `current[k] = v` on an (ordered) dict: replace in place when
the key exists, else append. -/
def setKey (m : FMap) (k : String) (v : FTree) : FMap :=
  if m.any (fun e => e.1 == k) then
    m.map (fun e => if e.1 == k then (k, v) else e)
  else m ++ [(k, v)]

/-- The insertion loop of `_build_file_tree` (insights.py:292-317):
navigate the directory parts, creating missing levels, then assign the
leaf under the final component.  (A name cannot denote both a file and a
directory under one parent in a scanned tree, so the existing entry found
while navigating is always a directory for record lists produced by a
scan.) -/
def insertRecordAt (m : FMap) : List String → FTree → FMap
  | [], _ => m
  | [nm], v => setKey m nm v
  | d :: rest, v =>
      let sub :=
        match m.lookup d with
        | some (.dir c) => c
        | _ => []
      setKey m d (.dir (insertRecordAt sub rest v))

/-- Python `InsightGenerator._build_file_tree` (insights.py:280-319).  The
leading root marker of an absolute path is stripped (insights.py:288-290;
the drive-letter case is Windows-only and outside the POSIX model). -/
def build_file_tree (files : List FileInfo) : FMap :=
  files.foldl (fun tree fi =>
    let parts := pathParts fi.path
    let parts := if parts.head? = some "/" then parts.tail else parts
    let vmeta :=
      if fi.is_video && fi.has_video_metadata then
        some { video_duration := fi.video_duration,
               video_resolution := fi.video_resolution,
               video_fps := fi.video_fps,
               video_codec := fi.video_codec,
               audio_codec := fi.audio_codec : VMeta }
      else none
    insertRecordAt tree parts (.leaf fi.size fi.extension fi.is_video vmeta))
    []

/-- Result of `generate_video_statistics` (video.py:114-181). -/
structure VideoStats where
  total_videos : Nat
  videos_with_metadata : Nat
  total_duration : ℚ
  average_duration : ℚ
  resolution_counts : List (String × Nat)
  codec_counts : List (String × Nat)

/-- Python `collections.Counter(ks).most_common()`: keys in first-occurrence
order with their multiplicities, stably sorted descending by count (again
rendered as the stable insertion sort). -/
def counterMostCommon (ks : List String) : List (String × Nat) :=
  ((firstOccurrences ks).map (fun k => (k, ks.count k))).insertionSort
    (fun a b => b.2 ≤ a.2)

/-- Python `generate_video_statistics` (video.py:114-181).  A `None` resolution
is skipped by the tuple-truthiness test at video.py:158; a `None` or
empty codec string is skipped at video.py:171. -/
def generate_video_statistics (video_files : List FileInfo) : VideoStats :=
  match video_files with
  | [] =>
      { total_videos := 0, videos_with_metadata := 0, total_duration := 0,
        average_duration := 0, resolution_counts := [], codec_counts := [] }
  | _ =>
      let withMeta := video_files.filter (fun v => v.has_video_metadata)
      let durations := withMeta.filterMap (fun v => v.video_duration)
      let resKeys := withMeta.filterMap (fun v =>
        v.video_resolution.map (fun r => toString r.1 ++ "x" ++ toString r.2))
      let codecKeys := withMeta.filterMap (fun v =>
        match v.video_codec with
        | some c => if c = "" then none else some c
        | none => none)
      { total_videos := video_files.length,
        videos_with_metadata := withMeta.length,
        total_duration := durations.sum,
        average_duration :=
          if durations.isEmpty then 0
          else durations.sum / (durations.length : ℚ),
        resolution_counts := counterMostCommon resKeys,
        codec_counts := counterMostCommon codecKeys }

/-- The `data` dict assembled by `generate_insights` (insights.py:164-179). -/
structure InsightsData where
  general_stats : GeneralStats
  file_types : List ExtStat
  age_distribution : List (String × Nat)
  file_tree : FMap
  video_stats : Option VideoStats

/-- Python `InsightGenerator.generate_insights` (insights.py:164-179).  `now` is
the clock value that `datetime.now()` yields when `_age_distribution`
runs; the Python method reads it from the ambient process clock rather
than taking it as a parameter, so the model threads it explicitly as
environment data.  `video_stats` is present iff at least one record is a
video (insights.py:174-177). -/
def generate_insights (now : Int) (files : List FileInfo) : InsightsData :=
  { general_stats := general_statistics files,
    file_types := file_type_statistics files,
    age_distribution := age_distribution now files,
    file_tree := build_file_tree files,
    video_stats :=
      if (files.filter (fun f => f.is_video)).isEmpty then none
      else some (generate_video_statistics (files.filter (fun f => f.is_video))) }

/-! ### Explicit age-bucket intervals

An independent rendering of the seven bucket ranges as explicit half-open
intervals, used to state what the if/elif chain of `_age_distribution`
computes without repeating its control flow. -/

/-- The seven buckets with their age intervals in seconds:
`(label, inclusive lower bound, exclusive upper bound)`, a missing bound
meaning unbounded on that side. -/
def bucketBounds : List (String × Option Int × Option Int) :=
  [("Last 24 hours", none, some 86400),
   ("Last week", some 86400, some 604800),
   ("Last month", some 604800, some 2592000),
   ("Last year", some 2592000, some 31536000),
   ("Last 3 years", some 31536000, some 94672800),
   ("Last 10 years", some 94672800, some 315360000),
   ("Older", some 315360000, none)]

/-- Membership of `x` in the half-open interval `[lo, hi)`. -/
def inIntervalB (lo hi : Option Int) (x : Int) : Bool :=
  (match lo with
   | some l => decide (l ≤ x)
   | none => true) &&
  (match hi with
   | some u => decide (x < u)
   | none => true)

/-! ### Concrete instances used by counterexamples and witnesses -/

/-- Two enumerated files; the effect environment below makes the stat of
`a.txt` fail (the file vanished between enumeration and build) while
`b.txt` is intact. -/
def entriesC1 : List FSTree := [.file "a.txt", .file "b.txt"]

def fsC1 : String → FileEnv := fun p =>
  if p = "/r/b.txt" then
    { stat := some { st_size := 3, st_ctime := 0, st_mtime := 0 },
      readText := some "abc" }
  else {}

/-- The record `_get_file_info` builds for the intact `b.txt`. -/
def fiC1b : FileInfo :=
  { path := "/r/b.txt", size := 3, extension := ".txt", created_time := 0,
    modified_time := 0, content_preview := some "abc",
    mime_type := some "text/plain" }

/-- A tree containing `.git/config` next to an ordinary file. -/
def entriesC2 : List FSTree := [.dir ".git" [.file "config"], .file "a.txt"]

def fsC2 : String → FileEnv := fun _ =>
  { stat := some { st_size := 4, st_ctime := 0, st_mtime := 0 },
    readText := some "conf" }

/-- A record created two years before the clock value used with it. -/
def recText : FileInfo :=
  { path := "/t/a.txt", size := 4, extension := ".txt", created_time := 0,
    modified_time := 0, content_preview := some "abcd",
    mime_type := some "text/plain" }

/-- Three records in two extension groups: group ".b" has more members,
group ".a" has the larger total size. -/
def demoC4 : List FileInfo :=
  [{ path := "/t/a.weird1", size := 100, extension := ".a",
     created_time := 0, modified_time := 0 },
   { path := "/t/b1.weird2", size := 1, extension := ".b",
     created_time := 0, modified_time := 0 },
   { path := "/t/b2.weird2", size := 2, extension := ".b",
     created_time := 0, modified_time := 0 }]

/-- A probe report with zero fps, zero width and a two-element `size`
fallback. -/
def clipC6 : ClipInfo :=
  { duration := some 5, w := some 0, h := some 720, size := some [0, 720],
    fps := some 0 }

def probeC6 : ProbeEnv := { getsize := some 20000, clip := .ok clipC6 }

/-- A probe report with negative width and fps equal to zero. -/
def clipC6w : ClipInfo :=
  { duration := some 5, w := some (-640), h := some 480, fps := some 0 }

def probeC6w : ProbeEnv := { getsize := some 20000, clip := .ok clipC6w }

def recC6 : FileInfo :=
  { path := "/v/m.mp4", size := 20000, extension := ".mp4",
    created_time := 0, modified_time := 0 }

/-- A zero-byte file environment (stat reports size 0, reading yields the
empty prefix). -/
def envC9 : FileEnv :=
  { stat := some { st_size := 0, st_ctime := 7, st_mtime := 7 },
    readText := some "" }

/-- What `_get_file_info` builds for a zero-byte `.png`. -/
def fiC9 : FileInfo :=
  { path := "/d/x.png", size := 0, extension := ".png", created_time := 7,
    modified_time := 7, content_preview := none,
    mime_type := some "image/png" }

/-- A file whose extension has no MIME mapping and whose content scan
finds a null byte. -/
def envC10 : FileEnv :=
  { stat := some { st_size := 9, st_ctime := 5, st_mtime := 5 },
    readText := some ("ab".push (Char.ofNat 0) ++ "de") }

/-- The record built for that file: no MIME type, so the non-binary
verdict, while the binary-looking content only suppresses the preview. -/
def fiC10 : FileInfo :=
  { path := "/d/x.xyz", size := 9, extension := ".xyz", created_time := 5,
    modified_time := 5, content_preview := none, mime_type := none }

/-! ## Theorems -/

/-! ### Shared helper lemmas -/

/-- Video enrichment only writes the five video fields: the identifying
and classification fields of the record are untouched. -/
theorem extract_video_metadata_preserves (env : ProbeEnv) (fi : FileInfo) :
    (extract_video_metadata env fi).path = fi.path ∧
    (extract_video_metadata env fi).extension = fi.extension ∧
    (extract_video_metadata env fi).content_preview = fi.content_preview ∧
    (extract_video_metadata env fi).mime_type = fi.mime_type := by
  simp only [extract_video_metadata]
  repeat' split
  all_goals exact ⟨rfl, rfl, rfl, rfl⟩

/-! ### C10 -/

/-- C10: for every record `_get_file_info` builds, `is_binary` is
determined by the extension-derived MIME guess alone — true exactly when
a MIME type is present and not text-like.  The content scan (null byte /
non-printable ratio) never feeds back into `is_binary`; it only discards
the preview. -/
theorem c10_is_binary_from_mime_only (p : FileParser) (env : FileEnv)
    (path : String) (fi : FileInfo)
    (h : get_file_info p env path = .ok fi) :
    fi.mime_type = guess_type path ∧
      (fi.is_binary = true ↔
        ∃ m, guess_type path = some m ∧ textLikeMime m = false) := by
  rcases hs : env.stat with _ | st
  · simp only [get_file_info, hs] at h
    exact Except.noConfusion h
  · have hmime : fi.mime_type = guess_type path := by
      simp only [get_file_info, hs] at h
      injection h with h
      rw [← h]
      split
      · exact (extract_video_metadata_preserves env.probe _).2.2.2
      · rfl
    refine ⟨hmime, ?_⟩
    rw [FileInfo.is_binary, hmime]
    cases hg : guess_type path with
    | none => simp
    | some m => simp

/-- Witness for C10: a file with an unrecognized extension whose content
scan sees a null byte still comes out with `is_binary = false`. -/
theorem c10_witness :
    get_file_info {} envC10 "/d/x.xyz" = .ok fiC10 ∧
      (fiC10.mime_type = guess_type "/d/x.xyz" ∧
        (fiC10.is_binary = true ↔
          ∃ m, guess_type "/d/x.xyz" = some m ∧ textLikeMime m = false)) :=
  ⟨by decide, c10_is_binary_from_mime_only {} envC10 "/d/x.xyz" fiC10 (by decide)⟩

/-! ### C9 -/

/-- C9 counterexample: a zero-byte `.png` file.  Its extension-derived
MIME type classifies it as likely binary (parser.py:150-153), so the
preview read is never attempted: the claim's "every zero-byte file has
`contentPreview = \"\"` and a non-binary verdict" fails — this record has
no preview at all and `is_binary = true`. -/
theorem c9_counterexample :
    get_file_info {} envC9 "/d/x.png" = .ok fiC9 ∧
      fiC9.content_preview = none ∧ fiC9.is_binary = true :=
  ⟨by decide, by decide, by decide⟩

/-- C9 (amended): a zero-byte file that is *not* classified likely-binary
from its extension/MIME guess, and whose read succeeds (necessarily with
the empty prefix), gets `contentPreview = \"\"` — the empty string, not
absent — and a non-binary verdict. -/
theorem c9_amended_empty_file (p : FileParser) (env : FileEnv) (path : String)
    (st : StatResult) (hstat : env.stat = some st) (hsize : st.st_size = 0)
    (hread : env.readText = some "") (hlb : likelyBinary path = false) :
    ∃ fi, get_file_info p env path = .ok fi ∧
      fi.content_preview = some "" ∧ fi.is_binary = false := by
  have hmime_nb : (match guess_type path with
      | some m => !(textLikeMime m)
      | none => false) = false := by
    have h2 := hlb
    simp only [likelyBinary, Bool.or_eq_false_iff] at h2
    exact h2.2
  simp only [get_file_info, hstat, hlb, hsize, hread]
  refine ⟨_, rfl, ?_, ?_⟩
  · split
    · rw [(extract_video_metadata_preserves env.probe _).2.2.1]
      exact rfl
    · exact rfl
  · have hm : ∀ fi0 : FileInfo, fi0.mime_type = guess_type path →
        fi0.is_binary = false := by
      intro fi0 h0
      simp only [FileInfo.is_binary]
      rw [h0]
      exact hmime_nb
    split
    · exact hm _ ((extract_video_metadata_preserves env.probe _).2.2.2)
    · exact hm _ rfl

/-- Witness for C9: a zero-byte `.txt` file comes out with the empty
preview and a non-binary verdict. -/
theorem c9_witness :
    envC9.stat = some { st_size := 0, st_ctime := 7, st_mtime := 7 } ∧
    envC9.readText = some "" ∧ likelyBinary "/d/a.txt" = false ∧
    (∃ fi, get_file_info {} envC9 "/d/a.txt" = .ok fi ∧
      fi.content_preview = some "" ∧ fi.is_binary = false) :=
  ⟨rfl, rfl, by decide,
   c9_amended_empty_file {} envC9 "/d/a.txt"
     { st_size := 0, st_ctime := 7, st_mtime := 7 } rfl rfl rfl (by decide)⟩

/-! ### C6 -/

/-- C6 counterexample: with a probe reporting `fps = 0`, `w = 0`,
`h = 720` and `size = (0, 720)`, the enrichment stores `videoFps = 0`
(video.py:73-74 only checks for `None`, not positivity) and stores the
zero-width resolution `(0, 720)` through the `clip.size` fallback
(video.py:63-64) — contradicting "non-positive components are rejected
and left absent, never stored as zero". -/
theorem c6_counterexample :
    (extract_video_metadata probeC6 recC6).video_fps = some 0 ∧
      (extract_video_metadata probeC6 recC6).video_resolution = some (0, 720) :=
  ⟨by decide, by decide⟩

/-- C6 (amended): once the probe runs (file at least 10000 bytes, clip
opened), (1) any reported non-None fps — zero or negative included — is
stored verbatim; (2) the `w`/`h` branch stores the pair whenever both
components are nonzero, negative values included; (3) when the `w`/`h`
truthiness test fails, any two-element `size` — zero or negative
components included — is stored verbatim. -/
theorem c6_amended_probe_values (env : ProbeEnv) (fi : FileInfo) (sz : Nat)
    (clip : ClipInfo) (hsz : env.getsize = some sz) (hbig : 10000 ≤ sz)
    (hclip : env.clip = .ok clip) :
    (∀ q : ℚ, clip.fps = some q →
       (extract_video_metadata env fi).video_fps = some q) ∧
    (∀ wv hv : Int, clip.w = some wv → clip.h = some hv → wv ≠ 0 → hv ≠ 0 →
       (extract_video_metadata env fi).video_resolution = some (wv, hv)) ∧
    (∀ a b : Int, (intTruthy clip.w && intTruthy clip.h) = false →
       clip.size = some [a, b] →
       (extract_video_metadata env fi).video_resolution = some (a, b)) := by
  have hif : ¬ sz < 10000 := by omega
  refine ⟨?_, ?_, ?_⟩
  · intro q hq
    simp only [extract_video_metadata, hsz, hclip, hq, if_neg hif]
    repeat' split
    all_goals rfl
  · intro wv hv hw hh hw0 hh0
    simp only [extract_video_metadata, hsz, hclip, if_neg hif]
    rw [hw, hh, if_pos (show (intTruthy (some wv) && intTruthy (some hv)) = true
      by simp [intTruthy, bne_iff_ne, hw0, hh0])]
    simp only [Option.getD_some]
    repeat' split
    all_goals rfl
  · intro a b hfalse hsize
    simp only [extract_video_metadata, hsz, hclip, if_neg hif]
    rw [if_neg (show ¬ ((intTruthy clip.w && intTruthy clip.h) = true) from by
      rw [hfalse]; simp), hsize]
    dsimp only
    repeat' split
    all_goals rfl

/-- Witness for C6 (amended): a probe reporting a negative width and a
zero fps has both values stored verbatim. -/
theorem c6_witness :
    probeC6w.getsize = some 20000 ∧ 10000 ≤ 20000 ∧
    probeC6w.clip = .ok clipC6w ∧
    (extract_video_metadata probeC6w recC6).video_fps = some 0 ∧
    (extract_video_metadata probeC6w recC6).video_resolution = some (-640, 480) :=
  ⟨rfl, by decide, rfl,
   (c6_amended_probe_values probeC6w recC6 20000 clipC6w rfl (by decide) rfl).1
     0 rfl,
   (c6_amended_probe_values probeC6w recC6 20000 clipC6w rfl (by decide) rfl).2.1
     (-640) 480 rfl rfl (by decide) (by decide)⟩

/-! ### C5 -/

/-- C5 counterexample: the same single-record list aggregated under two
different ambient clock readings yields different results — the clock is
read by `datetime.now()` inside `_age_distribution` (insights.py:248),
not supplied as a parameter of the aggregation, so the result is not a
function of the record list and an injected time. -/
theorem c5_counterexample :
    (generate_insights 3600 [recText]).age_distribution =
        [("Last 24 hours", 1)] ∧
      (generate_insights 315360000 [recText]).age_distribution =
        [("Older", 1)] ∧
      generate_insights 3600 [recText] ≠ generate_insights 315360000 [recText] :=
  ⟨by decide, by decide,
   fun h => absurd (congrArg InsightsData.age_distribution h) (by decide)⟩

/-- C5 (amended): aggregation is deterministic given the record list and
the clock value read mid-generation; every component except the age
distribution is independent of that clock value, and the age distribution
depends exactly on the `datetime.now()` reading threaded as `now`. -/
theorem c5_amended_clock_dependence (t u : Int) (files : List FileInfo) :
    (generate_insights t files).general_stats =
        (generate_insights u files).general_stats ∧
      (generate_insights t files).file_types =
        (generate_insights u files).file_types ∧
      (generate_insights t files).file_tree =
        (generate_insights u files).file_tree ∧
      (generate_insights t files).video_stats =
        (generate_insights u files).video_stats ∧
      (generate_insights t files).age_distribution = age_distribution t files :=
  ⟨rfl, rfl, rfl, rfl, rfl⟩

/-! ### C7 -/

/-- Removing zero-count entries does not change the sum of the counts. -/
theorem sum_map_snd_filter_pos (l : List (String × Nat)) :
    ((l.filter (fun e => 0 < e.2)).map (fun e => e.2)).sum
      = (l.map (fun e => e.2)).sum := by
  induction l with
  | nil => rfl
  | cons a l ih =>
      by_cases h : 0 < a.2
      · simp [List.filter_cons, h, ih]
      · have h0 : a.2 = 0 := by omega
        simp [List.filter_cons, h, ih, h0]

/-- Every age lands in exactly one of the seven labels. -/
theorem count_bucketOf (age : Int) : ageLabels.count (bucketOf age) = 1 := by
  unfold bucketOf
  split_ifs <;> decide

theorem sum_map_add_nat (L : List String) (f g : String → Nat) :
    (L.map (fun x => f x + g x)).sum = (L.map f).sum + (L.map g).sum := by
  induction L with
  | nil => rfl
  | cons a L ih =>
      simp only [List.map_cons, List.sum_cons, ih]
      omega

theorem sum_map_ite_one (L : List String) (s : String) :
    (L.map (fun l => if s == l then 1 else 0)).sum = L.count s := by
  induction L with
  | nil => rfl
  | cons a L ih =>
      simp only [List.map_cons, List.sum_cons, List.count_cons, ih]
      split_ifs <;> simp_all
      all_goals omega

/-- Summing the per-label bucket counts over all seven labels counts each
record exactly once. -/
theorem sum_bucket_counts (now : Int) (files : List FileInfo) :
    (ageLabels.map (fun l =>
        files.countP (fun f => bucketOf (now - f.created_time) == l))).sum
      = files.length := by
  induction files with
  | nil => simp
  | cons f fs ih =>
      simp only [List.countP_cons]
      rw [sum_map_add_nat ageLabels
            (fun l => fs.countP (fun g => bucketOf (now - g.created_time) == l))
            (fun l => if bucketOf (now - f.created_time) == l then 1 else 0),
          ih, sum_map_ite_one, count_bucketOf]
      simp

/-- C7: the age buckets partition the record list — the counts appearing
in the age-distribution mapping (zero-count buckets being omitted) sum to
the total number of records, for every record list and clock value. -/
theorem c7_age_buckets_partition (now : Int) (files : List FileInfo) :
    ((age_distribution now files).map (fun e => e.2)).sum = files.length := by
  unfold age_distribution
  split
  · next h =>
      rw [List.isEmpty_iff] at h
      subst h
      rfl
  · rw [sum_map_snd_filter_pos, List.map_map]
    exact sum_bucket_counts now files

/-! ### C3 -/

/-- C3 counterexample: a record two years old is bucketed under the label
"Last 3 years" — a sixth bucket that is none of the five the claim
allows (`<24h`, `<7d`, `<30d`, `<365d`, older). -/
theorem c3_counterexample :
    age_distribution 63072000 [recText] = [("Last 3 years", 1)] ∧
      "Last 3 years" ∉
        (["Last 24 hours", "Last week", "Last month", "Last year", "Older"] :
          List String) :=
  ⟨by decide, by decide⟩

theorem bucketOf_eq_24h (a : Int) :
    bucketOf a = "Last 24 hours" ↔ a < 86400 := by
  unfold bucketOf
  split_ifs <;> simp <;> omega

theorem bucketOf_eq_week (a : Int) :
    bucketOf a = "Last week" ↔ 86400 ≤ a ∧ a < 604800 := by
  unfold bucketOf
  split_ifs <;> simp <;> omega

theorem bucketOf_eq_month (a : Int) :
    bucketOf a = "Last month" ↔ 604800 ≤ a ∧ a < 2592000 := by
  unfold bucketOf
  split_ifs <;> simp <;> omega

theorem bucketOf_eq_year (a : Int) :
    bucketOf a = "Last year" ↔ 2592000 ≤ a ∧ a < 31536000 := by
  unfold bucketOf
  split_ifs <;> simp <;> omega

theorem bucketOf_eq_3y (a : Int) :
    bucketOf a = "Last 3 years" ↔ 31536000 ≤ a ∧ a < 94672800 := by
  unfold bucketOf
  split_ifs <;> simp <;> omega

theorem bucketOf_eq_10y (a : Int) :
    bucketOf a = "Last 10 years" ↔ 94672800 ≤ a ∧ a < 315360000 := by
  unfold bucketOf
  split_ifs <;> simp <;> omega

theorem bucketOf_eq_older (a : Int) :
    bucketOf a = "Older" ↔ 315360000 ≤ a := by
  unfold bucketOf
  split_ifs <;> simp <;> omega

/-- C3 (amended): the age distribution buckets `(now - createdTime)` into
the *seven* explicit half-open ranges of `bucketBounds` — the five claimed
thresholds 86400/604800/2592000/31536000 plus the additional cut points
94672800 (3 years) and 315360000 (10 years) — with zero-count buckets
omitted and no label outside these seven ever appearing. -/
theorem c3_amended_seven_buckets (now : Int) (files : List FileInfo) :
    age_distribution now files =
      (bucketBounds.map (fun b =>
        (b.1, files.countP (fun f =>
          inIntervalB b.2.1 b.2.2 (now - f.created_time))))).filter
        (fun e => 0 < e.2) := by
  unfold age_distribution
  split
  · next h =>
      rw [List.isEmpty_iff] at h
      subst h
      simp only [bucketBounds, List.map_cons, List.map_nil, List.countP_nil]
      decide
  · have e1 := List.countP_congr (l := files)
      (fun f _ => by simp [beq_iff_eq, bucketOf_eq_24h, inIntervalB])
      (p := fun f => bucketOf (now - f.created_time) == "Last 24 hours")
      (q := fun f => inIntervalB none (some 86400) (now - f.created_time))
    have e2 := List.countP_congr (l := files)
      (fun f _ => by simp [beq_iff_eq, bucketOf_eq_week, inIntervalB])
      (p := fun f => bucketOf (now - f.created_time) == "Last week")
      (q := fun f => inIntervalB (some 86400) (some 604800) (now - f.created_time))
    have e3 := List.countP_congr (l := files)
      (fun f _ => by simp [beq_iff_eq, bucketOf_eq_month, inIntervalB])
      (p := fun f => bucketOf (now - f.created_time) == "Last month")
      (q := fun f => inIntervalB (some 604800) (some 2592000) (now - f.created_time))
    have e4 := List.countP_congr (l := files)
      (fun f _ => by simp [beq_iff_eq, bucketOf_eq_year, inIntervalB])
      (p := fun f => bucketOf (now - f.created_time) == "Last year")
      (q := fun f => inIntervalB (some 2592000) (some 31536000) (now - f.created_time))
    have e5 := List.countP_congr (l := files)
      (fun f _ => by simp [beq_iff_eq, bucketOf_eq_3y, inIntervalB])
      (p := fun f => bucketOf (now - f.created_time) == "Last 3 years")
      (q := fun f => inIntervalB (some 31536000) (some 94672800) (now - f.created_time))
    have e6 := List.countP_congr (l := files)
      (fun f _ => by simp [beq_iff_eq, bucketOf_eq_10y, inIntervalB])
      (p := fun f => bucketOf (now - f.created_time) == "Last 10 years")
      (q := fun f => inIntervalB (some 94672800) (some 315360000) (now - f.created_time))
    have e7 := List.countP_congr (l := files)
      (fun f _ => by simp [beq_iff_eq, bucketOf_eq_older, inIntervalB])
      (p := fun f => bucketOf (now - f.created_time) == "Older")
      (q := fun f => inIntervalB (some 315360000) none (now - f.created_time))
    simp only [ageLabels, bucketBounds, List.map_cons, List.map_nil]
    rw [e1, e2, e3, e4, e5, e6, e7]

/-! ### C8 -/

/-- Python `min(..., key=k)` selects an element attaining the minimum key
such that every element before it in the list has a strictly greater key:
the first minimum wins. -/
theorem foldMinBy_spec {α : Type} (k : α → Int) (x : α) (xs : List α) :
    ∃ pre post, x :: xs = pre ++ foldMinBy k x xs :: post ∧
      (∀ y ∈ x :: xs, k (foldMinBy k x xs) ≤ k y) ∧
      (∀ y ∈ pre, k (foldMinBy k x xs) < k y) := by
  induction xs generalizing x with
  | nil =>
      refine ⟨[], [], rfl, ?_, by simp⟩
      intro y hy
      simp only [List.mem_singleton] at hy
      subst hy
      exact le_refl _
  | cons y ys ih =>
      have hstep : foldMinBy k x (y :: ys)
          = foldMinBy k (if k y < k x then y else x) ys := rfl
      by_cases hxy : k y < k x
      · obtain ⟨pre, post, heq, hmin, hpre⟩ := ih y
        have hm : foldMinBy k x (y :: ys) = foldMinBy k y ys := by
          rw [hstep, if_pos hxy]
        rw [hm]
        refine ⟨x :: pre, post, ?_, ?_, ?_⟩
        · rw [List.cons_append, ← heq]
        · intro z hz
          rcases List.mem_cons.mp hz with rfl | hz2
          · exact le_of_lt
              (lt_of_le_of_lt (hmin y (List.mem_cons_self _ _)) hxy)
          · exact hmin z hz2
        · intro z hz
          rcases List.mem_cons.mp hz with rfl | hz2
          · exact lt_of_le_of_lt (hmin y (List.mem_cons_self _ _)) hxy
          · exact hpre z hz2
      · obtain ⟨pre, post, heq, hmin, hpre⟩ := ih x
        have hm : foldMinBy k x (y :: ys) = foldMinBy k x ys := by
          rw [hstep, if_neg hxy]
        rw [hm]
        cases pre with
        | nil =>
            simp only [List.nil_append] at heq
            injection heq with h1 h2
            refine ⟨[], y :: post, ?_, ?_, by simp⟩
            · rw [List.nil_append, ← h1, ← h2]
            · intro z hz
              rcases List.mem_cons.mp hz with rfl | hz2
              · rw [← h1]
              · rcases List.mem_cons.mp hz2 with rfl | hz3
                · rw [← h1]
                  exact le_of_not_lt hxy
                · exact hmin z (List.mem_cons_of_mem _ hz3)
        | cons p pre2 =>
            rw [List.cons_append] at heq
            injection heq with h1 h2
            refine ⟨x :: y :: pre2, post, ?_, ?_, ?_⟩
            · rw [List.cons_append, List.cons_append, ← h2]
            · intro z hz
              rcases List.mem_cons.mp hz with rfl | hz2
              · exact hmin z (List.mem_cons_self _ _)
              · rcases List.mem_cons.mp hz2 with rfl | hz3
                · have hmx := hpre p (List.mem_cons_self p pre2)
                  rw [← h1] at hmx
                  exact le_of_lt (lt_of_lt_of_le hmx (le_of_not_lt hxy))
                · exact hmin z (List.mem_cons_of_mem _ hz3)
            · intro z hz
              rcases List.mem_cons.mp hz with rfl | hz2
              · have hmx := hpre p (List.mem_cons_self p pre2)
                rw [← h1] at hmx
                exact hmx
              · rcases List.mem_cons.mp hz2 with rfl | hz3
                · have hmx := hpre p (List.mem_cons_self p pre2)
                  rw [← h1] at hmx
                  exact lt_of_lt_of_le hmx (le_of_not_lt hxy)
                · exact hpre z (List.mem_cons_of_mem _ hz3)

/-- Python `max(..., key=k)` selects an element attaining the maximum key
such that every element before it in the list has a strictly smaller key:
the first maximum wins. -/
theorem foldMaxBy_spec {α : Type} (k : α → Int) (x : α) (xs : List α) :
    ∃ pre post, x :: xs = pre ++ foldMaxBy k x xs :: post ∧
      (∀ y ∈ x :: xs, k y ≤ k (foldMaxBy k x xs)) ∧
      (∀ y ∈ pre, k y < k (foldMaxBy k x xs)) := by
  induction xs generalizing x with
  | nil =>
      refine ⟨[], [], rfl, ?_, by simp⟩
      intro y hy
      simp only [List.mem_singleton] at hy
      subst hy
      exact le_refl _
  | cons y ys ih =>
      have hstep : foldMaxBy k x (y :: ys)
          = foldMaxBy k (if k x < k y then y else x) ys := rfl
      by_cases hxy : k x < k y
      · obtain ⟨pre, post, heq, hmax, hpre⟩ := ih y
        have hm : foldMaxBy k x (y :: ys) = foldMaxBy k y ys := by
          rw [hstep, if_pos hxy]
        rw [hm]
        refine ⟨x :: pre, post, ?_, ?_, ?_⟩
        · rw [List.cons_append, ← heq]
        · intro z hz
          rcases List.mem_cons.mp hz with rfl | hz2
          · exact le_of_lt
              (lt_of_lt_of_le hxy (hmax y (List.mem_cons_self _ _)))
          · exact hmax z hz2
        · intro z hz
          rcases List.mem_cons.mp hz with rfl | hz2
          · exact lt_of_lt_of_le hxy (hmax y (List.mem_cons_self _ _))
          · exact hpre z hz2
      · obtain ⟨pre, post, heq, hmax, hpre⟩ := ih x
        have hm : foldMaxBy k x (y :: ys) = foldMaxBy k x ys := by
          rw [hstep, if_neg hxy]
        rw [hm]
        cases pre with
        | nil =>
            simp only [List.nil_append] at heq
            injection heq with h1 h2
            refine ⟨[], y :: post, ?_, ?_, by simp⟩
            · rw [List.nil_append, ← h1, ← h2]
            · intro z hz
              rcases List.mem_cons.mp hz with rfl | hz2
              · rw [← h1]
              · rcases List.mem_cons.mp hz2 with rfl | hz3
                · rw [← h1]
                  exact le_of_not_lt hxy
                · exact hmax z (List.mem_cons_of_mem _ hz3)
        | cons p pre2 =>
            rw [List.cons_append] at heq
            injection heq with h1 h2
            refine ⟨x :: y :: pre2, post, ?_, ?_, ?_⟩
            · rw [List.cons_append, List.cons_append, ← h2]
            · intro z hz
              rcases List.mem_cons.mp hz with rfl | hz2
              · exact hmax z (List.mem_cons_self _ _)
              · rcases List.mem_cons.mp hz2 with rfl | hz3
                · have hmx := hpre p (List.mem_cons_self p pre2)
                  rw [← h1] at hmx
                  exact le_of_lt (lt_of_le_of_lt (le_of_not_lt hxy) hmx)
                · exact hmax z (List.mem_cons_of_mem _ hz3)
            · intro z hz
              rcases List.mem_cons.mp hz with rfl | hz2
              · have hmx := hpre p (List.mem_cons_self p pre2)
                rw [← h1] at hmx
                exact hmx
              · rcases List.mem_cons.mp hz2 with rfl | hz3
                · have hmx := hpre p (List.mem_cons_self p pre2)
                  rw [← h1] at hmx
                  exact lt_of_le_of_lt (le_of_not_lt hxy) hmx
                · exact hpre z (List.mem_cons_of_mem _ hz3)

/-- C8: for every non-empty record list, the file reported oldest by the
general statistics attains the minimal `created_time` and every record
before it in input order is strictly younger (stable min, first
occurrence wins), and symmetrically the file reported newest attains the
maximal `created_time` with every earlier record strictly older (stable
max). -/
theorem c8_oldest_newest_stable (x : FileInfo) (xs : List FileInfo) :
    ∃ m M preM postM preX postX,
      (general_statistics (x :: xs)).oldest_file = some m ∧
      (general_statistics (x :: xs)).newest_file = some M ∧
      x :: xs = preM ++ m :: postM ∧
      (∀ f ∈ x :: xs, m.created_time ≤ f.created_time) ∧
      (∀ f ∈ preM, m.created_time < f.created_time) ∧
      x :: xs = preX ++ M :: postX ∧
      (∀ f ∈ x :: xs, f.created_time ≤ M.created_time) ∧
      (∀ f ∈ preX, f.created_time < M.created_time) := by
  obtain ⟨preM, postM, h1, h2, h3⟩ :=
    foldMinBy_spec (fun f => f.created_time) x xs
  obtain ⟨preX, postX, g1, g2, g3⟩ :=
    foldMaxBy_spec (fun f => f.created_time) x xs
  exact ⟨_, _, preM, postM, preX, postX, rfl, rfl, h1, h2, h3, g1, g2, g3⟩

/-! ### C4 -/

/-- C4 counterexample: with one 100-byte ".a" file and two ".b" files
totalling 3 bytes, the extension list comes out ".b" (count 2, size 3)
before ".a" (count 1, size 100) — the list is sorted by member count, not
by total size, and is not in descending total-size order. -/
theorem c4_counterexample :
    (file_type_statistics demoC4).map (fun s => (s.extension, s.count, s.size))
        = [(".b", 2, 3), (".a", 1, 100)] ∧
      ¬ (file_type_statistics demoC4).Pairwise (fun a b => b.size ≤ a.size) :=
  ⟨by decide, by decide⟩

/-- C4 (amended): the per-extension statistics list is sorted in
descending order of each group's file count (`len`, the key at
insights.py:228), ties left in any stable order; it is not sorted by
total size. -/
theorem c4_amended_sorted_by_count (files : List FileInfo) :
    (file_type_statistics files).Pairwise (fun a b => b.count ≤ a.count) := by
  haveI hT : IsTrans (String × List FileInfo)
      (fun a b => b.2.length ≤ a.2.length) :=
    ⟨fun _ _ _ hab hbc => le_trans hbc hab⟩
  haveI hTot : IsTotal (String × List FileInfo)
      (fun a b => b.2.length ≤ a.2.length) :=
    ⟨fun a b => Nat.le_total b.2.length a.2.length⟩
  cases files with
  | nil => simp [file_type_statistics]
  | cons x xs =>
      show ((((firstOccurrences ((x :: xs).map (fun f => f.extension))).map
          (fun e => (e, (x :: xs).filter (fun f => f.extension == e)))).insertionSort
          (fun a b => b.2.length ≤ a.2.length)).map _).Pairwise _
      exact List.Pairwise.map _ (fun _ _ hab => hab)
        (List.sorted_insertionSort _ _)

/-! ### C1 -/

/-- The per-path build loop of `parse_directory` raises as soon as it
reaches a non-excluded path whose stat fails, because the
`_get_file_info` call at parser.py:103 has no handler and
`file_path.stat()` at parser.py:132 is unguarded. -/
theorem buildRecords_error_of_stat_none (p : FileParser)
    (fs : String → FileEnv) :
    ∀ (paths : List String) (q : String), q ∈ paths →
      should_exclude p.exclude_patterns q = false →
      (fs q).stat = none →
      buildRecords p fs paths = .error () := by
  intro paths
  induction paths with
  | nil =>
      intro q h _ _
      exact absurd h (List.not_mem_nil q)
  | cons r rest ih =>
      intro q hmem hex hstat
      rcases List.mem_cons.mp hmem with rfl | hmem2
      · have hgf : get_file_info p (fs q) q = .error () := by
          simp only [get_file_info, hstat]
        simp [buildRecords, hex, hgf]
      · simp only [buildRecords]
        split
        · exact ih q hmem2 hex hstat
        · cases hgr : get_file_info p (fs r) r with
          | error e => cases e; rfl
          | ok fi => simp [ih q hmem2 hex hstat]

/-- The enumeration of the two-file instance. -/
theorem enumeratedPathsC1_eval :
    enumeratedPaths {} "/r" entriesC1 = ["/r/a.txt", "/r/b.txt"] := by
  simp [enumeratedPaths, walk_directory, walkSubdirs, currentFiles,
    iterdirFiles, should_exclude, entriesC1]
  decide

/-- C1 counterexample: two files are enumerated; the first one vanishes
before its stat (stat fails), the second is intact and perfectly
buildable — yet `parse_directory` raises instead of skipping the failed
path and returning the remaining record. -/
theorem c1_counterexample :
    parse_directory {} fsC1 "/r" entriesC1 = .error () ∧
      get_file_info {} (fsC1 "/r/b.txt") "/r/b.txt" = .ok fiC1b := by
  refine ⟨?_, by decide⟩
  rw [parse_directory, enumeratedPathsC1_eval]
  decide

/-- C1 (amended): a stat failure on any enumerated, non-excluded path is
*not* absorbed: the exception escapes `parse_directory` and aborts the
whole scan (no record list is returned at all).  Only the preview-read
and probe steps absorb per-file failures. -/
theorem c1_amended_stat_failure_raises (p : FileParser)
    (fs : String → FileEnv) (root : String) (entries : List FSTree)
    (q : String) (hmem : q ∈ enumeratedPaths p root entries)
    (hexcl : should_exclude p.exclude_patterns q = false)
    (hstat : (fs q).stat = none) :
    parse_directory p fs root entries = .error () :=
  buildRecords_error_of_stat_none p fs _ q hmem hexcl hstat

/-- Witness for C1 (amended), at the concrete two-file instance. -/
theorem c1_witness :
    "/r/a.txt" ∈ enumeratedPaths {} "/r" entriesC1 ∧
    should_exclude ({} : FileParser).exclude_patterns "/r/a.txt" = false ∧
    (fsC1 "/r/a.txt").stat = none ∧
    parse_directory {} fsC1 "/r" entriesC1 = .error () :=
  ⟨by rw [enumeratedPathsC1_eval]; decide, by decide, by decide,
   c1_amended_stat_failure_raises {} fsC1 "/r" entriesC1 "/r/a.txt"
     (by rw [enumeratedPathsC1_eval]; decide) (by decide) (by decide)⟩

/-! ### C2 -/

/-- The enumeration of the `.git` instance under the default (empty)
pattern set. -/
theorem enumeratedPathsC2_eval :
    enumeratedPaths defaultScanParser "/repo" entriesC2
      = ["/repo/a.txt", "/repo/.git/config"] := by
  simp [enumeratedPaths, defaultScanParser, walk_directory, walkSubdirs,
    currentFiles, iterdirFiles, should_exclude, entriesC2]
  decide

/-- C2 counterexample: `scan` invoked with no `--exclude` options builds
`FileParser(exclude_patterns=())` (main.py:108 with click's empty-tuple
default) — `Config.DEFAULT_EXCLUDE_PATTERNS` is never wired in.  The
walker therefore enumerates `/repo/.git/config`, and a full parse yields
a record for it; the third conjunct shows the default pattern set *would*
have excluded that path had it been applied. -/
theorem c2_counterexample :
    "/repo/.git/config" ∈ enumeratedPaths defaultScanParser "/repo" entriesC2 ∧
      (parse_directory defaultScanParser fsC2 "/repo" entriesC2).map
          (fun l => l.map (fun fi => fi.path))
        = .ok ["/repo/a.txt", "/repo/.git/config"] ∧
      should_exclude DEFAULT_EXCLUDE_PATTERNS "/repo/.git/config" = true := by
  refine ⟨by rw [enumeratedPathsC2_eval]; decide, ?_, by decide⟩
  rw [parse_directory, enumeratedPathsC2_eval]
  decide

theorem currentFiles_nil_patterns (path : String) (entries : List FSTree) :
    currentFiles [] path entries = iterdirFiles path entries := by
  induction entries with
  | nil => rfl
  | cons t rest ih =>
      cases t with
      | file n =>
          simp only [currentFiles, iterdirFiles, List.filterMap_cons] at *
          simp [should_exclude, ih]
      | dir n cs =>
          simp only [currentFiles, iterdirFiles, List.filterMap_cons] at *
          exact ih

theorem walkSubdirs_nil_aux (n : Nat) :
    ∀ (path : String) (l : List FSTree), sizeOf l ≤ n →
      walkSubdirs [] path l = allSubFiles path l := by
  induction n with
  | zero =>
      intro path l hl
      cases l with
      | nil => simp [walkSubdirs, allSubFiles]
      | cons t rest =>
          exfalso
          simp only [List.cons.sizeOf_spec] at hl
          omega
  | succ n ih =>
      intro path l hl
      cases l with
      | nil => simp [walkSubdirs, allSubFiles]
      | cons t rest =>
          cases t with
          | file nm =>
              have h1 : sizeOf rest ≤ n := by
                simp only [List.cons.sizeOf_spec, FSTree.file.sizeOf_spec] at hl
                omega
              simp only [walkSubdirs, allSubFiles]
              exact ih path rest h1
          | dir nm cs =>
              have h1 : sizeOf cs ≤ n := by
                simp only [List.cons.sizeOf_spec, FSTree.dir.sizeOf_spec] at hl
                omega
              have h2 : sizeOf rest ≤ n := by
                simp only [List.cons.sizeOf_spec, FSTree.dir.sizeOf_spec] at hl
                omega
              have hse : should_exclude [] (joinPath path nm) = false := rfl
              simp only [walkSubdirs, allSubFiles, hse, Bool.false_eq_true,
                if_false]
              rw [currentFiles_nil_patterns, ih (joinPath path nm) cs h1,
                ih path rest h2]

theorem walkSubdirs_nil_patterns (path : String) (l : List FSTree) :
    walkSubdirs [] path l = allSubFiles path l :=
  walkSubdirs_nil_aux (sizeOf l) path l (le_refl _)

/-- C2 (amended): when the caller supplies no exclusion patterns, the
parser applies *no* patterns at all — the enumeration of a
default-configured scan is exactly every file in the tree, dot
directories, `.git` contents, `*.pyc` and all; the default pattern set in
`Config` exists but is unused. -/
theorem c2_amended_no_default_patterns (root : String) (entries : List FSTree) :
    enumeratedPaths defaultScanParser root entries = allFilesIn root entries := by
  show walk_directory [] root entries = allFilesIn root entries
  unfold walk_directory allFilesIn
  rw [currentFiles_nil_patterns, walkSubdirs_nil_patterns]
